import Mathlib

/-!
Verification development for the luminal tensor-compiler repository.

The definitions below are a shallow embedding of the repository's source:
* namespace `Cpu`   embeds `src/src/compilers/cpu/mod.rs` (the MatMul2D
  rewrite pass, the unary-fusion pass, the `MatMul2D` and `FusedUnary`
  operators) together with the graph builder of `src/src/graph_tensor.rs`.
* namespace `Metal` embeds `src/crates/luminal_metal/src/binary.rs`
  (the subtraction, equality and gather rewrite passes and the
  `MetalSub`/`MetalEqual` kernel interfaces).
* namespace `Core`  embeds `GraphTensor::data` of
  `src/src/core/graph_tensor.rs`.

Scalar values are modelled as `Int`: every concrete scenario settled here
uses integer-valued data, and none of the settled properties depends on
floating-point rounding.  The shape-tracker implementation itself is not
part of the given sources, so the tracker is modelled from the spec
(section 3 and 4.1): an ordered list of axes with a size, a stride and a
`fake` (broadcast) marker; `expand` inserts a stride-0 fake axis, `permute`
reorders axes, and the logical index of an element is the dot product of
its row-major coordinates with the strides.
-/

namespace Cpu

/-- The four unary point ops recognised by `is_unary` in
`UnaryFusionCompiler::compile` (Exp2, Log2, Recip, Sin).  The source stores
the corresponding `fn(f32) -> f32`; we store the tag and interpret it with
an arbitrary interpretation `interp : UTag → Int → Int`, which is faithful
because `is_unary` is a fixed tag-to-function table. -/
inductive UTag
  | exp2
  | log2
  | recip
  | sin
deriving DecidableEq, Repr

/-- Operators appearing in the CPU-side graphs of the claims:
`Function` (an input node), `Mul`, `SumReduce(dim)`, `MatMul2D`, the four
unary ops, and `FusedUnary(fns)` from `src/src/compilers/cpu/mod.rs`. -/
inductive Op
  | function
  | mul
  | sumReduce (dim : Nat)
  | matMul2D
  | unary (t : UTag)
  | fused (fs : List UTag)
deriving DecidableEq, Repr

/-- One axis of a shape tracker: its public size, its storage stride, and
whether it is a fake (broadcast/expanded) axis.  Modelled from the spec:
an `expand` axis has stride zero and is marked fake; edges record which
axes are expansions (spec sections 3, 4.1 and design note on fake axes). -/
structure STAxis where
  size : Nat
  stride : Nat
  fake : Bool
deriving DecidableEq, Repr

/-- Modelled from the spec: the shape tracker as an ordered list of axes.
The derived queries `shape`, `strides`, `fakes`, `n_elements` and the
index function used by kernels are below. -/
structure ST where
  axes : List STAxis
deriving DecidableEq, Repr

def ST.shape (st : ST) : List Nat := st.axes.map (fun a => a.size)

def ST.strides (st : ST) : List Nat := st.axes.map (fun a => a.stride)

def ST.fakes (st : ST) : List Bool := st.axes.map (fun a => a.fake)

def ST.nElements (st : ST) : Nat := st.shape.prod

/-- Row-major coordinates of logical index `i` in a shape. -/
def coordsOf : List Nat → Nat → List Nat
  | [], _ => []
  | s :: rest, i => (i / rest.prod) % s :: coordsOf rest (i % rest.prod)

/-- Storage offset of the element whose coordinates are `coords`:
dot product of coordinates and strides (fake axes have stride 0). -/
def offsetOf (strides coords : List Nat) : Nat :=
  ((coords.zip strides).map (fun p => p.1 * p.2)).sum

/-- Storage offset of logical element `i` under tracker `st`. -/
def ST.index (st : ST) (i : Nat) : Nat :=
  offsetOf st.strides (coordsOf st.shape i)

/-- Read logical element `i` of data `d` through tracker `st`
(missing storage reads as 0, matching the validity-gated loads). -/
def readAt (st : ST) (d : List Int) (i : Nat) : Int :=
  d.getD (st.index i) 0

/-- Read the element at coordinates `coords` of data `d` through `st`. -/
def readCoords (st : ST) (d : List Int) (coords : List Nat) : Int :=
  d.getD (offsetOf st.strides coords) 0

/-- Embeds `srcs[k].2.remove_dim(d)` of the source: delete axis `d`. -/
def ST.removeDim (st : ST) (d : Nat) : ST :=
  ⟨st.axes.take d ++ st.axes.drop (d + 1)⟩

/-- Embeds `permute(p)`: axis `j` of the result is axis `p[j]` of the input. -/
def ST.permute (st : ST) (p : List Nat) : ST :=
  ⟨p.map (fun j => st.axes.getD j ⟨0, 0, false⟩)⟩

/-- A contiguous row-major tracker over `sizes`
(the identity view: real axes, suffix-product strides). -/
def contigAxes : List Nat → List STAxis
  | [] => []
  | s :: rest => ⟨s, rest.prod, false⟩ :: contigAxes rest

def stContig (sizes : List Nat) : ST := ⟨contigAxes sizes⟩

/-- Embeds `expand(axis, size)` from the spec: insert a fake axis of the given
size with stride zero at position `d`. -/
def ST.expand (st : ST) (d size : Nat) : ST :=
  ⟨st.axes.take d ++ ⟨size, 0, true⟩ :: st.axes.drop d⟩

/-- A data edge of the CPU graph: source node, destination node, the
destination input slot, and the shape tracker carried by the edge. -/
structure CEdge where
  src : Nat
  dst : Nat
  dstIn : Nat
  st : ST
deriving DecidableEq, Repr

/-- The CPU graph: operator nodes (id, op), data edges, and the auxiliary
sets `no_delete` and `to_retrieve`. -/
structure CGraph where
  nodes : List (Nat × Op)
  edges : List CEdge
  noDelete : List Nat
  toRetrieve : List Nat
deriving DecidableEq, Repr

def opAt (g : CGraph) (n : Nat) : Option Op :=
  (g.nodes.find? (fun p => p.1 == n)).map (fun p => p.2)

def nodeIds (g : CGraph) : List Nat := g.nodes.map (fun p => p.1)

/-- Fresh node id: one more than the largest id in use. -/
def freshId (g : CGraph) : Nat := (nodeIds g).foldl Nat.max 0 + 1

def removeNode (g : CGraph) (n : Nat) : CGraph :=
  { g with
    nodes := g.nodes.filter (fun p => p.1 != n)
    edges := g.edges.filter (fun e => e.src != n && e.dst != n) }

def addNode (g : CGraph) (n : Nat) (o : Op) : CGraph :=
  { g with nodes := g.nodes ++ [(n, o)] }

def addEdge (g : CGraph) (e : CEdge) : CGraph :=
  { g with edges := g.edges ++ [e] }

/-- Embeds `move_outgoing_edge(old, new)`: redirect every edge leaving `old` so
it leaves `new` instead. -/
def moveOutgoingEdge (old new : Nat) (g : CGraph) : CGraph :=
  { g with edges := g.edges.map (fun e =>
      if e.src == old then { e with src := new } else e) }

def setOp (g : CGraph) (n : Nat) (o : Op) : CGraph :=
  { g with nodes := g.nodes.map (fun p => if p.1 == n then (p.1, o) else p) }

/-- Insertion sort of edges by destination input slot (`get_sources`
returns a node's inputs ordered by input index). -/
def insertByDstIn (e : CEdge) : List CEdge → List CEdge
  | [] => [e]
  | x :: xs =>
    if e.dstIn ≤ x.dstIn then e :: x :: xs else x :: insertByDstIn e xs

def sortByDstIn (l : List CEdge) : List CEdge := l.foldr insertByDstIn []

/-- Embeds `get_sources(n)`: the sources feeding `n` with their edge trackers,
ordered by input slot. -/
def getSources (g : CGraph) (n : Nat) : List (Nat × ST) :=
  (sortByDstIn (g.edges.filter (fun e => e.dst == n))).map
    (fun e => (e.src, e.st))

/-- The substitution `if x == old then new else x`: one id substitution of
`move_references`. -/
def substId (old new x : Nat) : Nat := if x == old then new else x

/-- Modelled from the spec (section 4.4 (g)) and the call sites of
`move_references` in `src/src/compilers/cpu/mod.rs`: migrate every entry
equal to `old` in the caller-held remap, in `no_delete` and in
`to_retrieve` to `new`. -/
def moveReferences (remap noDel toRet : List Nat) (old new : Nat) :
    List Nat × List Nat × List Nat :=
  (remap.map (substId old new),
   noDel.map (substId old new),
   toRet.map (substId old new))

/-- Elementwise product `Mul`: output element `i`, for every logical
index of the (common) broadcast shape, is the product of the two inputs
read through their edge trackers. -/
def mulEval (s0 : ST) (d0 : List Int) (s1 : ST) (d1 : List Int) :
    List Int :=
  (List.range s0.nElements).map (fun i => readAt s0 d0 i * readAt s1 d1 i)

/-- Insert `v` at position `pos` of `l`. -/
def insAt (l : List Nat) (pos v : Nat) : List Nat :=
  l.take pos ++ v :: l.drop pos

/-- Embeds `SumReduce(dim)`: sum the input along axis `dim` of its logical
shape, producing a contiguous output with that axis removed (the core
reduce operator is not part of the given sources; modelled from the
spec's description of the reduction). -/
def sumReduceEval (st : ST) (d : List Int) (dim : Nat) : List Int :=
  let sh := st.shape
  let outSh := sh.take dim ++ sh.drop (dim + 1)
  (List.range outSh.prod).map (fun j =>
    let oc := coordsOf outSh j
    (List.range (sh.getD dim 1)).foldl
      (fun acc k => acc + readCoords st d (insAt oc dim k)) 0)

/-- Embeds `MatMul2D::process` of `src/src/compilers/cpu/mod.rs`: the sgemm call
with `m = a_shape[0]`, `k = a_shape[1]`, `n = b_shape[1]`, reading both
operands directly through the row/column strides of their trackers and
writing a row-major `m × n` output. -/
def matMul2DEval (sta : ST) (da : List Int) (stb : ST) (db : List Int) :
    List Int :=
  let m := sta.shape.getD 0 0
  let kk := sta.shape.getD 1 0
  let n := stb.shape.getD 1 0
  let rsa := sta.strides.getD 0 0
  let csa := sta.strides.getD 1 0
  let rsb := stb.strides.getD 0 0
  let csb := stb.strides.getD 1 0
  (List.range (m * n)).map (fun idx =>
    let i := idx / n
    let j := idx % n
    (List.range kk).foldl
      (fun acc k =>
        acc + da.getD (i * rsa + k * csa) 0 * db.getD (k * rsb + j * csb) 0)
      0)

/-- One operator applied to its inputs (each input paired with the shape
tracker of its edge).  `Function` nodes produce the externally supplied
data `inputs nid`.  `FusedUnary` is `FusedUnary::process` of the source:
it maps every raw stored value through the function list in order,
ignoring the tracker; the basic unary ops behave as the singleton case. -/
def applyOp (interp : UTag → Int → Int) (inputs : Nat → List Int)
    (nid : Nat) (op : Op) (args : List (List Int × ST)) : List Int :=
  match op, args with
  | .function, _ => inputs nid
  | .mul, (d0, s0) :: (d1, s1) :: _ => mulEval s0 d0 s1 d1
  | .sumReduce dim, (d, s) :: _ => sumReduceEval s d dim
  | .matMul2D, (d0, s0) :: (d1, s1) :: _ => matMul2DEval s0 d0 s1 d1
  | .unary t, (d, _) :: _ => d.map (interp t)
  | .fused fs, (d, _) :: _ =>
      d.map (fun v => fs.foldl (fun a f => interp f a) v)
  | _, _ => []

/-- Execute the graph: nodes are evaluated in list order (the builder
creates them in topological order and the rewrites append replacement
nodes with fresh, larger ids), memoising every node's output. -/
def evalFold (g : CGraph) (interp : UTag → Int → Int)
    (inputs : Nat → List Int) : List (Nat × List Int) :=
  g.nodes.foldl
    (fun memo p =>
      let args := (getSources g p.1).map
        (fun q => (((memo.find? (fun r => r.1 == q.1)).map
          (fun r => r.2)).getD [], q.2))
      memo ++ [(p.1, applyOp interp inputs p.1 p.2 args)])
    []

/-- The data of the (single) retrieved tensor after execution. -/
def evalRetrieved (g : CGraph) (interp : UTag → Int → Int)
    (inputs : Nat → List Int) : List Int :=
  (((evalFold g interp inputs).find?
      (fun r => r.1 == g.toRetrieve.headD 1000000)).map
    (fun r => r.2)).getD []

/-- The structural part of the `MatMul2DCompiler` selector
(`src/src/compilers/cpu/mod.rs` lines 36-46): a `Mul` node whose two
inputs carry 3-axis trackers of the same sizes with fake patterns
`[false, true, false]` and `[true, false, false]`, feeding `sr`. -/
def mmShapePattern (g : CGraph) (mulId srId : Nat) : Bool :=
  (opAt g mulId == some Op.mul) &&
  (match opAt g srId with
   | some (Op.sumReduce _) => true
   | _ => false) &&
  (g.edges.any (fun e => e.src == mulId && e.dst == srId)) &&
  (let srcs := getSources g mulId
   srcs.length == 2 &&
   (srcs.getD 0 (0, ⟨[]⟩)).2.fakes == [false, true, false] &&
   (srcs.getD 1 (0, ⟨[]⟩)).2.fakes == [true, false, false] &&
   (srcs.getD 0 (0, ⟨[]⟩)).2.shape.length == 3 &&
   (srcs.getD 0 (0, ⟨[]⟩)).2.shape == (srcs.getD 1 (0, ⟨[]⟩)).2.shape)

/-- The operator predicate of the selector, line 47 of
`src/src/compilers/cpu/mod.rs`: `.check(|o, _| o.is_equal(&SumReduce(0)))`. -/
def mmCheck (g : CGraph) (srId : Nat) : Bool :=
  opAt g srId == some (Op.sumReduce 0)

/-- A full match of the `MatMul2DCompiler` selector. -/
def mmMatch (g : CGraph) (mulId srId : Nat) : Bool :=
  mmShapePattern g mulId srId && mmCheck g srId

/-- The body of the `MatMul2DCompiler::compile` match loop (lines 51-88):
skip if the `Mul` is in `no_delete`; otherwise undo the expansions
(`remove_dim`) and transpose the second operand (`permute [1,0]`),
install a `MatMul2D` node fed by the original sources, move the
outgoing edges of the `SumReduce` to it, migrate references for both
replaced nodes, and remove them. -/
def matMul2DProcessMatch (g : CGraph) (remap : List Nat)
    (mulId srId : Nat) : CGraph × List Nat :=
  if g.noDelete.contains mulId then (g, remap) else
  match getSources g mulId with
  | (s0, st0) :: (s1, st1) :: _ =>
    let st0n := st0.removeDim 1
    let st1n := (st1.removeDim 0).permute [1, 0]
    let nid := freshId g
    let g1 := addEdge (addEdge (addNode g nid Op.matMul2D)
      ⟨s0, nid, 0, st0n⟩) ⟨s1, nid, 1, st1n⟩
    let g2 := moveOutgoingEdge srId nid g1
    let m1 := moveReferences remap g2.noDelete g2.toRetrieve srId nid
    let m2 := moveReferences m1.1 m1.2.1 m1.2.2 mulId nid
    let g3 := { g2 with noDelete := m2.2.1, toRetrieve := m2.2.2 }
    (removeNode (removeNode g3 mulId) srId, m2.1)
  | _ => (g, remap)

def allPairs (l : List Nat) : List (Nat × Nat) :=
  l.flatMap (fun a => l.map (fun b => (a, b)))

/-- Embeds `MatMul2DCompiler::compile`: process every selector match (matches
are determined on the incoming graph, in node order). -/
def matMul2DCompile (g : CGraph) (remap : List Nat) : CGraph × List Nat :=
  ((allPairs (nodeIds g)).filter (fun q => mmMatch g q.1 q.2)).foldl
    (fun acc q => matMul2DProcessMatch acc.1 acc.2 q.1 q.2) (g, remap)

/-- The `is_unary`-driven pairwise fusion table of
`UnaryFusionCompiler::compile` (lines 295-323): Unary→Unary,
Unary→Fused, Fused→Unary and Fused→Fused each produce the fused op
carried by the upstream node; anything else is not replaced. -/
def fuseOps : Op → Op → Option Op
  | .unary f, .unary g => some (.fused [f, g])
  | .unary f, .fused gs => some (.fused (f :: gs))
  | .fused fs, .unary g => some (.fused (fs ++ [g]))
  | .fused fs, .fused gs => some (.fused (fs ++ gs))
  | _, _ => none

/-- One iteration of the scan in `UnaryFusionCompiler::compile`
(lines 279-336): skip nodes in `no_delete` or whose fan-out is not 1;
otherwise, if the node and its single consumer fuse, store the fused op
at the node, redirect the consumer's outgoing edges, migrate references
and remove the consumer. -/
def fuseStep (p : CGraph × List Nat) (id : Nat) : CGraph × List Nat :=
  let g := p.1
  if g.noDelete.contains id then p else
  let outgoing := (g.edges.filter (fun e => e.src == id)).map
    (fun e => e.dst)
  if outgoing.length != 1 then p else
  let tgt := outgoing.headD 0
  match opAt g id, opAt g tgt with
  | some opS, some opT =>
    match fuseOps opS opT with
    | some newOp =>
      let g1 := moveOutgoingEdge tgt id (setOp g id newOp)
      let m := moveReferences p.2 g1.noDelete g1.toRetrieve tgt id
      (removeNode { g1 with noDelete := m.2.1, toRetrieve := m.2.2 } tgt,
       m.1)
    | none => p
  | _, _ => p

/-- Embeds `UnaryFusionCompiler::compile`: one scan over the node ids collected
from the incoming graph (`node_indices().collect_vec()`). -/
def unaryFusionCompile (g : CGraph) (remap : List Nat) :
    CGraph × List Nat :=
  (nodeIds g).foldl fuseStep (g, remap)

/-- The graph built by `GraphTensor::matmul` of
`src/src/graph_tensor.rs` (lines 117-128) for `[A,B] × [B,C]`, in the
edge-tracker form the CPU compiler consumes: the right operand is
permuted to `[C,B]`, both operands are expanded to `[A,C,B]` (the
expansion axes fake), the `Mul` output is reduced with axis 2. -/
def builderMatMulGraph (A B C : Nat) : CGraph :=
  ⟨[(0, Op.function), (1, Op.function), (2, Op.mul), (3, Op.sumReduce 2)],
   [⟨0, 2, 0, (stContig [A, B]).expand 1 C⟩,
    ⟨1, 2, 1, ((stContig [B, C]).permute [1, 0]).expand 0 A⟩,
    ⟨2, 3, 0, stContig [A, C, B]⟩],
   [3], [3]⟩

/-- A graph with the same `Mul` structure but whose reduction is
`SumReduce(0)`: elementwise product of the broadcasts of `a : [2,1]` and
`b : [1,1]`, summed over axis 0.  This is the shape accepted by the
compiled-in check `is_equal(&SumReduce(0))`. -/
def gBad : CGraph :=
  ⟨[(0, Op.function), (1, Op.function), (2, Op.mul), (3, Op.sumReduce 0)],
   [⟨0, 2, 0, (stContig [2, 1]).expand 1 1⟩,
    ⟨1, 2, 1, ((stContig [1, 1]).permute [1, 0]).expand 0 2⟩,
    ⟨2, 3, 0, stContig [2, 1, 1]⟩],
   [3], [3]⟩

/-- Inputs for `gBad`: `a = [1, 2]` (a 2×1 matrix), `b = [3]` (1×1). -/
def inputsBad : Nat → List Int :=
  fun n => if n == 0 then [1, 2] else if n == 1 then [3] else []

/-- A unary interpretation that is irrelevant for graphs without unary
nodes (used to close concrete statements). -/
def interp0 : UTag → Int → Int := fun _ v => v

/-- The chain `sin(log2(recip(x)))` of spec scenario (f): a `Function`
input followed by `Recip`, `Log2`, `Sin`, with the final node retrieved
(hence in `no_delete`). -/
def chainGraph : CGraph :=
  ⟨[(0, Op.function), (1, Op.unary UTag.recip), (2, Op.unary UTag.log2),
    (3, Op.unary UTag.sin)],
   [⟨0, 1, 0, stContig [2]⟩, ⟨1, 2, 0, stContig [2]⟩,
    ⟨2, 3, 0, stContig [2]⟩],
   [3], [3]⟩

/-- A two-op unary chain `g(f(x))` with the final node retrieved. -/
def chain2Graph (f g : UTag) : CGraph :=
  ⟨[(0, Op.function), (1, Op.unary f), (2, Op.unary g)],
   [⟨0, 1, 0, stContig [2]⟩, ⟨1, 2, 0, stContig [2]⟩],
   [2], [2]⟩

/-- What one fusion pass makes of `chain2Graph f g`: a single
`FusedUnary [f, g]` node carrying the migrated retrieval. -/
def fusedChain2Graph (f g : UTag) : CGraph :=
  ⟨[(0, Op.function), (1, Op.fused [f, g])],
   [⟨0, 1, 0, stContig [2]⟩], [1], [1]⟩

/-- What one fusion pass makes of `chainGraph`: the fused pair
`[recip, log2]` followed by the still-separate `Sin`. -/
def chainOnceGraph : CGraph :=
  ⟨[(0, Op.function), (1, Op.fused [UTag.recip, UTag.log2]),
    (3, Op.unary UTag.sin)],
   [⟨0, 1, 0, stContig [2]⟩, ⟨1, 3, 0, stContig [2]⟩],
   [3], [3]⟩

/-- What a second fusion pass makes of `chainOnceGraph`: the single
`FusedUnary [recip, log2, sin]`. -/
def chainTwiceGraph : CGraph :=
  ⟨[(0, Op.function), (1, Op.fused [UTag.recip, UTag.log2, UTag.sin])],
   [⟨0, 1, 0, stContig [2]⟩], [1], [1]⟩

end Cpu

namespace Metal

/-- A dimension of a metal shape tracker: a known size or a dynamic
dimension variable (a single character), per spec section 3. -/
inductive MDim
  | known (n : Nat)
  | var (c : Char)
deriving DecidableEq, Repr

/-- The fragment of `BigExpression` used by `output_buffer_sizes` and
`metal_forward`: naturals, dimension variables and products. -/
inductive BExpr
  | num (n : Nat)
  | var (c : Char)
  | mul (a b : BExpr)
deriving DecidableEq, Repr

/-- Embeds `BigExpression::to_usize`: resolves only when no variable remains. -/
def BExpr.toUsize : BExpr → Option Nat
  | .num n => some n
  | .var _ => none
  | .mul a b =>
    match a.toUsize, b.toUsize with
    | some x, some y => some (x * y)
    | _, _ => none

/-- Value of an expression under a total environment. -/
def BExpr.evalEnv (env : Char → Nat) : BExpr → Nat
  | .num n => n
  | .var c => env c
  | .mul a b => a.evalEnv env * b.evalEnv env

/-- The metal-side shape tracker, modelled from the spec: the public
dimensions together with the derived view queries `is_contiguous`
(composed index is the identity), `is_sliced` and `is_padded` (a slice
or pad view with nonzero amount is present), which are the only tracker
queries the rewrite passes of `binary.rs` consume. -/
structure MST where
  dims : List MDim
  contiguous : Bool
  sliced : Bool
  padded : Bool
deriving DecidableEq, Repr

def dimExpr : MDim → BExpr
  | .known n => .num n
  | .var c => .var c

/-- Embeds `ShapeTracker::n_elements()`: the product of the public dims, as a
symbolic expression. -/
def MST.nElementsExpr (st : MST) : BExpr :=
  st.dims.foldr (fun d acc => BExpr.mul (dimExpr d) acc) (BExpr.num 1)

def MDim.toUsize : MDim → Option Nat
  | .known n => some n
  | .var _ => none

/-- Metal-side operators appearing in the rewrite passes of
`binary.rs`.  `sub` records the two input trackers it was constructed
with (`MetalSub::new(a_edge.2, b_edge.2, ..)`); `gather` records its
embedding dimension (`MetalGather::new(.., embed_dim)`). -/
inductive MOp
  | constant (v : Int)
  | mul
  | add
  | sub (aSt bSt : MST)
  | lessThan
  | equalOp
  | arange
  | copyToDevice
  | sumReduce (dim : Nat)
  | gather (embedDim : Nat)
  | other
deriving DecidableEq, Repr

/-- An edge of the metal graph.  `schedule` marks a schedule edge (no
data); data edges carry `(input_order, output_order, shape_tracker)` =
`(dstIn, srcOut, st)`, the triple returned by `as_data()`. -/
structure MEdge where
  src : Nat
  dst : Nat
  srcOut : Nat
  dstIn : Nat
  schedule : Bool
  st : MST
deriving DecidableEq, Repr

structure MGraph where
  nodes : List (Nat × MOp)
  edges : List MEdge
  noDelete : List Nat
deriving DecidableEq, Repr

def opAt (g : MGraph) (n : Nat) : Option MOp :=
  (g.nodes.find? (fun p => p.1 == n)).map (fun p => p.2)

def nodeIds (g : MGraph) : List Nat := g.nodes.map (fun p => p.1)

def freshId (g : MGraph) : Nat := (nodeIds g).foldl Nat.max 0 + 1

def removeNode (g : MGraph) (n : Nat) : MGraph :=
  { g with
    nodes := g.nodes.filter (fun p => p.1 != n)
    edges := g.edges.filter (fun e => e.src != n && e.dst != n) }

def addNode (g : MGraph) (n : Nat) (o : MOp) : MGraph :=
  { g with nodes := g.nodes ++ [(n, o)] }

def addEdge (g : MGraph) (e : MEdge) : MGraph :=
  { g with edges := g.edges ++ [e] }

def moveOutgoingEdge (old new : Nat) (g : MGraph) : MGraph :=
  { g with edges := g.edges.map (fun e =>
      if e.src == old then { e with src := new } else e) }

def moveIncomingEdge (old new : Nat) (g : MGraph) : MGraph :=
  { g with edges := g.edges.map (fun e =>
      if e.dst == old then { e with dst := new } else e) }

/-- Embeds `check_no_delete(graph, &[..])`: modelled from the spec (section 4.4
(b)): true when some node of the match is in `no_delete`. -/
def checkNoDelete (g : MGraph) (ids : List Nat) : Bool :=
  ids.any (fun n => g.noDelete.contains n)

/-- Embeds `graph.get_dests(n)`: the targets of the edges leaving `n`. -/
def getDests (g : MGraph) (n : Nat) : List Nat :=
  (g.edges.filter (fun e => e.src == n)).map (fun e => e.dst)

def outDegree (g : MGraph) (n : Nat) : Nat :=
  (g.edges.filter (fun e => e.src == n)).length

/-- Modelled from the spec (design note on safe removal):
`safe_remove_node(n, k)` removes `n` only when at most `k` outgoing
edges remain, and otherwise silently leaves it alone. -/
def safeRemoveNode (g : MGraph) (n k : Nat) : MGraph :=
  if outDegree g n ≤ k then removeNode g n else g

/-- The `(input_order, output_order, shape)` payload of a data edge;
`as_data()` on a schedule edge is `None` (an `unwrap` on it panics). -/
structure EData where
  dstIn : Nat
  srcOut : Nat
  st : MST
deriving DecidableEq, Repr

def edgeData (e : MEdge) : Option EData :=
  if e.schedule then none else some ⟨e.dstIn, e.srcOut, e.st⟩

/-- Outcome of one match-loop iteration of a rewrite pass: `panic` when
an `unwrap` in the body fails, `skip` when the iteration `continue`s
without touching the graph, `done g` when the rewrite was applied. -/
inductive StepResult
  | panic
  | skip
  | done (g : MGraph)
deriving DecidableEq, Repr

/-- Line 184-189 of `binary.rs`: the first incoming edge of `add` whose
source is not `mul` (schedule edges included; `as_data().unwrap()`
follows). -/
def metalSubFindA (g : MGraph) (mul add : Nat) : Option MEdge :=
  g.edges.find? (fun e => e.dst == add && e.src != mul)

/-- Line 190-195: the first incoming edge of `mul` whose source is not
the `-1` constant. -/
def metalSubFindB (g : MGraph) (negOne mul : Nat) : Option MEdge :=
  g.edges.find? (fun e => e.dst == mul && e.src != negOne)

/-- Line 196-204: `edges_connecting(mul, add).next()`, the edge whose
tracker is tested by the precondition. -/
def metalSubFindFinal (g : MGraph) (mul add : Nat) : Option MEdge :=
  g.edges.find? (fun e => e.src == mul && e.dst == add)

/-- Line 205-210: the rewrite goes ahead only when the tested tracker is
contiguous, not sliced and not padded. -/
def subPrecondition (st : MST) : Bool :=
  st.contiguous && !st.sliced && !st.padded

/-- Lines 211-222: add the `MetalSub` node (constructed from the `a` and
`b` edge trackers), feed it from the preserved sources, and move the
outgoing edges of `add` onto it.  Returns the graph and the new id. -/
def metalSubInstallFrom (g : MGraph) (add : Nat) (ad bd : EData)
    (aSrc bSrc : Nat) : MGraph × Nat :=
  let subId := freshId g
  let g1 := addEdge (addEdge (addNode g subId (MOp.sub ad.st bd.st))
    ⟨aSrc, subId, ad.srcOut, 0, false, ad.st⟩)
    ⟨bSrc, subId, bd.srcOut, 1, false, bd.st⟩
  (moveOutgoingEdge add subId g1, subId)

/-- Lines 224-228: remove the `-1` constant only when it has exactly one
destination, then remove the `Mul` and the `Add`. -/
def metalSubFinish (g2 : MGraph) (negOne mul add : Nat) : MGraph :=
  let g3 := if (getDests g2 negOne).length == 1
    then removeNode g2 negOne else g2
  removeNode (removeNode g3 mul) add

/-- The body of the `MetalSubtractionCompiler::compile` match loop
(`binary.rs` lines 180-229). -/
def metalSubProcessMatch (g : MGraph) (negOne mul add : Nat) :
    StepResult :=
  if checkNoDelete g [negOne, mul, add] then .skip else
  match metalSubFindA g mul add with
  | none => .panic
  | some ae =>
    match edgeData ae with
    | none => .panic
    | some ad =>
      match metalSubFindB g negOne mul with
      | none => .panic
      | some be =>
        match edgeData be with
        | none => .panic
        | some bd =>
          match metalSubFindFinal g mul add with
          | none => .panic
          | some bfe =>
            match edgeData bfe with
            | none => .panic
            | some bfd =>
              if !(subPrecondition bfd.st) then .skip else
              let p := metalSubInstallFrom g add ad bd ae.src be.src
              .done (metalSubFinish p.1 negOne mul add)

/-- A match of the subtraction selector `constant -1 → Mul → Add`
(three distinct nodes connected by data edges). -/
def metalSubMatchOk (g : MGraph) (t : Nat × Nat × Nat) : Bool :=
  (match opAt g t.1 with
   | some (MOp.constant v) => v == -1
   | _ => false) &&
  (opAt g t.2.1 == some MOp.mul) &&
  (opAt g t.2.2 == some MOp.add) &&
  g.edges.any (fun e => e.src == t.1 && e.dst == t.2.1 && !e.schedule) &&
  g.edges.any (fun e => e.src == t.2.1 && e.dst == t.2.2 && !e.schedule) &&
  (t.1 != t.2.1) && (t.2.1 != t.2.2) && (t.1 != t.2.2)

def allTriples (l : List Nat) : List (Nat × Nat × Nat) :=
  l.flatMap (fun a => l.flatMap (fun b => l.map (fun c => (a, b, c))))

def applySubStep (acc : Option MGraph) (t : Nat × Nat × Nat) :
    Option MGraph :=
  match acc with
  | none => none
  | some h =>
    match metalSubProcessMatch h t.1 t.2.1 t.2.2 with
    | .panic => none
    | .skip => some h
    | .done g2 => some g2

/-- Embeds `MetalSubtractionCompiler::compile` (`binary.rs` lines 166-230):
process the selector matches of the incoming graph in order.  The remap
parameter is the compiler's second argument; the source binds it to `_`
and never touches it, so it is returned unchanged. -/
def metalSubCompile (g : MGraph) (remap : List Nat) :
    Option MGraph × List Nat :=
  (((allTriples (nodeIds g)).filter (metalSubMatchOk g)).foldl
     applySubStep (some g), remap)

/-- Lines 593-604 of `binary.rs`: the incoming edge of `mul` whose
source is not `equal` and which is not a schedule edge; the embedding
dimension is axis 2 of its tracker. -/
def gatherEmbedEdge (g : MGraph) (equal mul : Nat) : Option MEdge :=
  g.edges.find? (fun e => e.dst == mul && e.src != equal && !e.schedule)

/-- The body of the `MetalGatherCompiler::compile` match loop
(`binary.rs` lines 589-620). -/
def gatherProcessMatch (g : MGraph) (indCopy arange equal mul sr : Nat) :
    StepResult :=
  if checkNoDelete g [arange, equal, mul, sr] then .skip else
  match gatherEmbedEdge g equal mul with
  | none => .panic
  | some e =>
    match e.st.dims.get? 2 with
    | none => .panic
    | some d =>
      match d.toUsize with
      | none => .panic
      | some k =>
        let gid := freshId g
        let g1 := addNode g gid (MOp.gather k)
        let g2 := moveIncomingEdge indCopy gid g1
        let g3 := safeRemoveNode g2 equal 1
        let g4 := moveIncomingEdge mul gid g3
        let g5 := moveOutgoingEdge sr gid g4
        let g6 := removeNode g5 sr
        .done (safeRemoveNode (safeRemoveNode
          (safeRemoveNode g6 mul 0) indCopy 0) arange 0)

/-- Embeds `MetalSub::output_buffer_sizes` (`binary.rs` lines 74-76):
`vec![input_shapes[0].n_elements() * size_of::<T>()]`. -/
def metalSubOutputBufferSizes (sizeofT : Nat) (inputShapes : List MST) :
    List BExpr :=
  match inputShapes with
  | [] => []
  | st :: _ => [BExpr.mul st.nElementsExpr (BExpr.num sizeofT)]

/-- Embeds `MetalEqual::output_buffer_sizes` (`binary.rs` lines 279-281): the
same expression. -/
def metalEqualOutputBufferSizes (sizeofT : Nat) (inputShapes : List MST) :
    List BExpr :=
  match inputShapes with
  | [] => []
  | st :: _ => [BExpr.mul st.nElementsExpr (BExpr.num sizeofT)]

/-- Modelled from the spec: the element count of the output of an
elementwise binary kernel — the kernel writes `out[idx]` for
`idx < n_elements` of the first input shape, so the output holds
`input_shapes[0].n_elements()` elements. -/
def outputElemCountExpr (inputShapes : List MST) : BExpr :=
  (inputShapes.headD ⟨[], true, false, false⟩).nElementsExpr

/-- The execution error vocabulary of spec section 7 (no corresponding
type exists in the source). -/
inductive MetalError
  | unboundDimension
deriving DecidableEq, Repr

/-- Outcome of a kernel dispatch: the source can only produce `ok` (the
dispatch size and the bound dynamic-dimension values) or `panicked` (an
`unwrap` failed); `errValue` is the outcome the spec describes and is
never produced by the code. -/
inductive ForwardResult
  | ok (inpSize : Nat) (dynVals : List Nat)
  | panicked
  | errValue (e : MetalError)
deriving DecidableEq, Repr

def lookupDyn (m : List (Char × Nat)) (c : Char) : Option Nat :=
  (m.find? (fun p => p.1 == c)).map (fun p => p.2)

/-- Modelled from the spec (section 4.5 dispatch contract):
`input_dyn_dims` binds, for each dynamic dim referenced by the kernel,
its current value from `dyn_map`; an absent symbol makes the lookup
fail (which the source unwraps). -/
def inputDynDims (syms : List Char) (m : List (Char × Nat)) :
    Option (List Nat) :=
  syms.mapM (lookupDyn m)

/-- Embeds `MetalSub::metal_forward` (`binary.rs` lines 77-104) up to the
dispatch: `inputs[0].1.n_elements().to_usize().unwrap()` (line 84) and
the dynamic-dim binding (lines 94-99).  A failed `unwrap` is a panic. -/
def metalSubForwardStep (inputSt : MST) (syms : List Char)
    (m : List (Char × Nat)) : ForwardResult :=
  match inputSt.nElementsExpr.toUsize with
  | none => .panicked
  | some n =>
    match inputDynDims syms m with
    | none => .panicked
    | some vs => .ok n vs

/-- Embeds `resolve(dyn_map)` of the spec: substitute every bound dimension
variable; unbound variables remain. -/
def MST.resolve (st : MST) (m : List (Char × Nat)) : MST :=
  { st with dims := st.dims.map (fun d =>
      match d with
      | .var c =>
        match lookupDyn m c with
        | some n => .known n
        | none => .var c
      | .known n => .known n) }

/-- Dispatching the kernel during `execute()`: the executor resolves the
runtime tracker against `dyn_map` and calls `metal_forward`. -/
def metalSubDispatch (st : MST) (syms : List Char)
    (m : List (Char × Nat)) : ForwardResult :=
  metalSubForwardStep (st.resolve m) syms m

/-- A contiguous unsliced unpadded one-axis tracker of size 4. -/
def stCont : MST := ⟨[MDim.known 4], true, false, false⟩

/-- A padded (hence non-contiguous) one-axis tracker of size 4. -/
def stPad : MST := ⟨[MDim.known 4], false, false, true⟩

/-- A tracker with 10 elements (for the buffer-size claims). -/
def st10 : MST := ⟨[MDim.known 10], true, false, false⟩

/-- A tracker whose only dimension is the dynamic variable `a`. -/
def stVar : MST := ⟨[MDim.var 'a'], true, false, false⟩

/-- A subtraction-pattern graph in which the non-`Mul` incoming edge of
the `Add` (node 3 → node 4) carries a padded, non-contiguous tracker
while the `Mul → Add` edge is contiguous:
`0 : constant -1, 1 : b-source, 2 : Mul, 3 : a-source, 4 : Add`. -/
def gC2 : MGraph :=
  ⟨[(0, MOp.constant (-1)), (1, MOp.other), (2, MOp.mul),
    (3, MOp.other), (4, MOp.add)],
   [⟨0, 2, 0, 0, false, stCont⟩, ⟨1, 2, 0, 1, false, stCont⟩,
    ⟨2, 4, 0, 0, false, stCont⟩, ⟨3, 4, 0, 1, false, stPad⟩],
   []⟩

/-- The same subtraction-pattern graph with every edge contiguous; the
caller-held remap in the C4 scenario holds the id 4 of the `Add`. -/
def gC4 : MGraph :=
  ⟨[(0, MOp.constant (-1)), (1, MOp.other), (2, MOp.mul),
    (3, MOp.other), (4, MOp.add)],
   [⟨0, 2, 0, 0, false, stCont⟩, ⟨1, 2, 0, 1, false, stCont⟩,
    ⟨2, 4, 0, 0, false, stCont⟩, ⟨3, 4, 0, 1, false, stCont⟩],
   []⟩

/-- A subtraction-pattern graph in which the `-1` constant (node 0) has
a second consumer (node 6), so its destination count is 2. -/
def gC9 : MGraph :=
  ⟨[(0, MOp.constant (-1)), (1, MOp.other), (2, MOp.mul),
    (3, MOp.other), (4, MOp.add), (6, MOp.mul)],
   [⟨0, 2, 0, 0, false, stCont⟩, ⟨1, 2, 0, 1, false, stCont⟩,
    ⟨2, 4, 0, 0, false, stCont⟩, ⟨3, 4, 0, 1, false, stCont⟩,
    ⟨0, 6, 0, 0, false, stCont⟩],
   []⟩

/-- A gather-pattern graph: `0 : ARange, 1 : CopyToDevice, 2 : Equal,
3 : weights source, 4 : Mul, 5 : SumReduce`; the non-`Equal` incoming
edge of the `Mul` carries a tracker whose axis 2 has size 7. -/
def gC8 : MGraph :=
  ⟨[(0, MOp.arange), (1, MOp.copyToDevice), (2, MOp.equalOp),
    (3, MOp.other), (4, MOp.mul), (5, MOp.sumReduce 2)],
   [⟨0, 2, 0, 0, false, stCont⟩, ⟨1, 2, 0, 1, false, stCont⟩,
    ⟨2, 4, 0, 0, false, stCont⟩,
    ⟨3, 4, 0, 1, false, ⟨[MDim.known 1, MDim.known 1, MDim.known 7],
      true, false, false⟩⟩,
    ⟨4, 5, 0, 0, false, stCont⟩],
   []⟩

/-- The graph the subtraction pass produces from `gC2`: a `MetalSub`
node 5 (built from the padded `a` tracker and the contiguous `b`
tracker) replaces the `Mul`/`Add`, and the `-1` constant is gone. -/
def gC2res : MGraph :=
  ⟨[(1, MOp.other), (3, MOp.other), (5, MOp.sub stPad stCont)],
   [⟨3, 5, 0, 0, false, stPad⟩, ⟨1, 5, 0, 1, false, stCont⟩],
   []⟩

/-- The graph the subtraction pass produces from `gC4`. -/
def gC4res : MGraph :=
  ⟨[(1, MOp.other), (3, MOp.other), (5, MOp.sub stCont stCont)],
   [⟨3, 5, 0, 0, false, stCont⟩, ⟨1, 5, 0, 1, false, stCont⟩],
   []⟩

end Metal

namespace Core

/-- Embeds `GraphTensor::data` of `src/src/core/graph_tensor.rs` (lines
135-146): a vector of `shape.n_elements()` zeros in which position `i`
is overwritten with `orig_data[n]` whenever the shape tracker resolves
logical index `i` to the physical index `n` (`self.shape.index(i)` is
`Some(n)`), and stays `0` when the tracker reports the index invalid.
The tracker enters only through its element count and its index
function. -/
def dataVec (nElem : Nat) (index : Nat → Option Nat) (orig : List Int) :
    List Int :=
  (List.range nElem).map (fun i =>
    match index i with
    | some n => orig.getD n 0
    | none => 0)

end Core

section Helpers

/-- Reading entry `i` of a tabulated vector of length `nn`. -/
theorem getD_range_map (f : Nat → Int) (nn i : Nat) (h : i < nn) :
    ((List.range nn).map f).getD i 0 = f i := by
  rw [List.getD_eq_getElem?_getD, List.getElem?_map, List.getElem?_range h]
  rfl

theorem metal_nodes_addEdge (g : Metal.MGraph) (e : Metal.MEdge) :
    (Metal.addEdge g e).nodes = g.nodes := rfl

theorem metal_nodes_moveIncoming (a b : Nat) (g : Metal.MGraph) :
    (Metal.moveIncomingEdge a b g).nodes = g.nodes := rfl

theorem metal_nodes_moveOutgoing (a b : Nat) (g : Metal.MGraph) :
    (Metal.moveOutgoingEdge a b g).nodes = g.nodes := rfl

theorem metal_mem_nodes_addNode (g : Metal.MGraph) (n : Nat)
    (o : Metal.MOp) : (n, o) ∈ (Metal.addNode g n o).nodes := by
  simp [Metal.addNode]

theorem metal_mem_nodes_addNode_of_mem (g : Metal.MGraph) (n : Nat)
    (o : Metal.MOp) (p : Nat × Metal.MOp) (hp : p ∈ g.nodes) :
    p ∈ (Metal.addNode g n o).nodes := by
  simp [Metal.addNode]
  exact Or.inl hp

theorem metal_mem_nodes_removeNode (g : Metal.MGraph) (n : Nat)
    (p : Nat × Metal.MOp) (hp : p ∈ g.nodes) (h : p.1 ≠ n) :
    p ∈ (Metal.removeNode g n).nodes := by
  simp [Metal.removeNode]
  exact ⟨hp, h⟩

theorem metal_mem_nodes_safeRemove (g : Metal.MGraph) (n k : Nat)
    (p : Nat × Metal.MOp) (hp : p ∈ g.nodes) (h : p.1 ≠ n) :
    p ∈ (Metal.safeRemoveNode g n k).nodes := by
  unfold Metal.safeRemoveNode
  by_cases hc : Metal.outDegree g n ≤ k
  · simp [hc]
    exact metal_mem_nodes_removeNode g n p hp h
  · simp [hc]
    exact hp

theorem metal_mem_nodeIds_removeNode (g : Metal.MGraph) (n x : Nat)
    (h : x ≠ n) :
    x ∈ Metal.nodeIds (Metal.removeNode g n) ↔ x ∈ Metal.nodeIds g := by
  simp only [Metal.nodeIds, Metal.removeNode, List.mem_map,
    List.mem_filter]
  constructor
  · rintro ⟨p, ⟨hp, _⟩, rfl⟩
    exact ⟨p, hp, rfl⟩
  · rintro ⟨p, hp, rfl⟩
    exact ⟨p, ⟨hp, by simpa using h⟩, rfl⟩

theorem metal_not_mem_nodeIds_removeNode (g : Metal.MGraph) (n : Nat) :
    n ∉ Metal.nodeIds (Metal.removeNode g n) := by
  simp [Metal.nodeIds, Metal.removeNode]

theorem metal_mem_edges_removeNode (g : Metal.MGraph) (n : Nat)
    (e : Metal.MEdge) (he : e ∈ g.edges) (h1 : e.src ≠ n)
    (h2 : e.dst ≠ n) : e ∈ (Metal.removeNode g n).edges := by
  simp [Metal.removeNode]
  exact ⟨he, h1, h2⟩

theorem metal_mem_edges_moveOutgoing (g : Metal.MGraph) (a b : Nat)
    (e : Metal.MEdge) (he : e ∈ g.edges) (h : e.src ≠ a) :
    e ∈ (Metal.moveOutgoingEdge a b g).edges := by
  simp only [Metal.moveOutgoingEdge]
  have h2 : (if e.src == a then { e with src := b } else e) = e := by
    simp [h]
  exact h2 ▸ List.mem_map_of_mem _ he

theorem metal_mem_edges_addEdge (g : Metal.MGraph) (e f : Metal.MEdge)
    (he : e ∈ g.edges) : e ∈ (Metal.addEdge g f).edges := by
  simp [Metal.addEdge]
  exact Or.inl he

end Helpers

/-- C1 [code_bug]: executing the original graph and the compiled graph
must agree, but the `MatMul2DCompiler` pass accepts `SumReduce(0)` (the
`is_equal(&SumReduce(0))` check of `src/src/compilers/cpu/mod.rs` line
47) and rewrites it to a `MatMul2D` that contracts over axis 2:
on `gBad` (broadcast product of `a = [1,2]` and `b = [3]` reduced over
axis 0) the uncompiled graph returns `[9]` while the compiled graph
returns `[3, 6]`. -/
theorem c1_matmul_pass_changes_output :
    Cpu.evalRetrieved Cpu.gBad Cpu.interp0 Cpu.inputsBad = [9] ∧
    Cpu.evalRetrieved (Cpu.matMul2DCompile Cpu.gBad []).1 Cpu.interp0
      Cpu.inputsBad = [3, 6] ∧
    Cpu.evalRetrieved (Cpu.matMul2DCompile Cpu.gBad []).1 Cpu.interp0
      Cpu.inputsBad ≠
      Cpu.evalRetrieved Cpu.gBad Cpu.interp0 Cpu.inputsBad := by
  exact ⟨by decide, by decide, by decide⟩

/-- C3 [code_bug]: the graph built by `GraphTensor::matmul` for
`[2,3] × [3,4]` carries exactly the fake/shape pattern of the matmul
selector and ends in `SumReduce(2)`, yet the selector's operator check
(`is_equal(&SumReduce(0))`, line 47) rejects it, so no candidate pair
matches and `MatMul2DCompiler::compile` leaves the graph unchanged. -/
theorem c3_matmul_check_rejects_builder_graph :
    Cpu.mmShapePattern (Cpu.builderMatMulGraph 2 3 4) 2 3 = true ∧
    Cpu.opAt (Cpu.builderMatMulGraph 2 3 4) 3 =
      some (Cpu.Op.sumReduce 2) ∧
    Cpu.mmCheck (Cpu.builderMatMulGraph 2 3 4) 3 = false ∧
    ((Cpu.allPairs (Cpu.nodeIds (Cpu.builderMatMulGraph 2 3 4))).all
      (fun q => !Cpu.mmMatch (Cpu.builderMatMulGraph 2 3 4) q.1 q.2)) =
      true ∧
    Cpu.matMul2DCompile (Cpu.builderMatMulGraph 2 3 4) [] =
      (Cpu.builderMatMulGraph 2 3 4, []) := by
  exact ⟨by decide, by decide, by decide, by decide, by decide⟩

/-- C2 counterexample: on `gC2` the non-`Mul` incoming edge of the `Add`
carries the padded, non-contiguous tracker `stPad`, yet the subtraction
rewrite is applied (the `Sub` node is installed), because the source
tests the `Mul → Add` edge instead. -/
theorem c2_rewrite_applied_despite_padded_a_edge :
    Metal.metalSubProcessMatch Metal.gC2 0 2 4 =
      Metal.StepResult.done Metal.gC2res ∧
    (5, Metal.MOp.sub Metal.stPad Metal.stCont) ∈ Metal.gC2res.nodes ∧
    Metal.metalSubFindA Metal.gC2 2 4 =
      some ⟨3, 4, 0, 1, false, Metal.stPad⟩ ∧
    Metal.stPad.padded = true ∧
    Metal.stPad.contiguous = false := by
  exact ⟨by decide, by decide, by decide, by decide, by decide⟩

/-- C4 counterexample: `MetalSubtractionCompiler::compile` binds its
remap argument to `_`; compiling `gC4` with a caller-held remap `[4]`
(the id of the `Add`) removes node 4 and installs the replacement node
5, but the remap comes back as `[4]`, not migrated to `[5]`. -/
theorem c4_metal_sub_leaves_remap_stale :
    Metal.metalSubCompile Metal.gC4 [4] = (some Metal.gC4res, [4]) ∧
    (Metal.nodeIds Metal.gC4res).contains 4 = false ∧
    (5, Metal.MOp.sub Metal.stCont Metal.stCont) ∈ Metal.gC4res.nodes ∧
    (Metal.metalSubCompile Metal.gC4 [4]).2 ≠ [5] := by
  exact ⟨by decide, by decide, by decide, by decide⟩

/-- C5 counterexample: for `T = f16` (`size_of = 2`) and a 10-element
input shape, `output_buffer_sizes` of both `MetalSub` and `MetalEqual`
evaluates to 20 — a byte count — while the output holds 10 elements. -/
theorem c5_buffer_sizes_not_element_counts :
    (Metal.metalSubOutputBufferSizes 2 [Metal.st10]).map
      Metal.BExpr.toUsize = [some 20] ∧
    (Metal.metalEqualOutputBufferSizes 2 [Metal.st10]).map
      Metal.BExpr.toUsize = [some 20] ∧
    Metal.BExpr.toUsize
      (Metal.outputElemCountExpr [Metal.st10]) = some 10 ∧
    (20 : Nat) ≠ 10 := by
  exact ⟨by decide, by decide, by decide, by decide⟩

/-- C6 counterexample: one application of `UnaryFusionCompiler` on the
chain `sin(log2(recip(x)))` leaves two operator nodes — the fused pair
`[recip, log2]` and the still-separate `Sin` — not a single
`FusedUnary [recip, log2, sin]`. -/
theorem c6_single_pass_does_not_collapse_chain :
    (Cpu.unaryFusionCompile Cpu.chainGraph []).1.nodes =
      [(0, Cpu.Op.function),
       (1, Cpu.Op.fused [Cpu.UTag.recip, Cpu.UTag.log2]),
       (3, Cpu.Op.unary Cpu.UTag.sin)] ∧
    ((Cpu.unaryFusionCompile Cpu.chainGraph []).1.nodes.map
        (fun p => p.2)).contains
      (Cpu.Op.fused [Cpu.UTag.recip, Cpu.UTag.log2, Cpu.UTag.sin]) =
      false := by
  exact ⟨by decide, by decide⟩

/-- C7 counterexample: dispatching `MetalSub` whose input tracker holds
the dynamic dimension `a` with an empty `dyn_map` hits the `unwrap`s of
`metal_forward` — the embedded outcome is a panic, not the
`UnboundDimension` error value the claim requires. -/
theorem c7_unbound_dim_panics :
    Metal.metalSubDispatch Metal.stVar ['a'] [] =
      Metal.ForwardResult.panicked ∧
    Metal.ForwardResult.panicked ≠
      Metal.ForwardResult.errValue Metal.MetalError.unboundDimension := by
  exact ⟨by decide, by decide⟩

/-- C2 [corrected]: the subtraction rewrite's precondition is evaluated
on the tracker of the `Mul → Add` edge (`b_final_shape`, `binary.rs`
lines 196-210), not on the non-`Mul` incoming edge of the `Add`: once
the match's edges are found, the body skips exactly when that tracker
is non-contiguous, sliced or padded, and otherwise installs the `Sub`
regardless of the non-`Mul` edge's tracker. -/
theorem c2_precondition_is_on_mul_add_edge (g : Metal.MGraph)
    (negOne mul add : Nat) (ae be bfe : Metal.MEdge)
    (ad bd bfd : Metal.EData)
    (hnd : Metal.checkNoDelete g [negOne, mul, add] = false)
    (hae : Metal.metalSubFindA g mul add = some ae)
    (had : Metal.edgeData ae = some ad)
    (hbe : Metal.metalSubFindB g negOne mul = some be)
    (hbd : Metal.edgeData be = some bd)
    (hbf : Metal.metalSubFindFinal g mul add = some bfe)
    (hbfd : Metal.edgeData bfe = some bfd) :
    (Metal.subPrecondition bfd.st = false →
      Metal.metalSubProcessMatch g negOne mul add =
        Metal.StepResult.skip) ∧
    (Metal.subPrecondition bfd.st = true →
      Metal.metalSubProcessMatch g negOne mul add =
        Metal.StepResult.done (Metal.metalSubFinish
          (Metal.metalSubInstallFrom g add ad bd ae.src be.src).1
          negOne mul add)) := by
  constructor
  · intro hpre
    simp [Metal.metalSubProcessMatch, hnd, hae, had, hbe, hbd, hbf,
      hbfd, hpre]
  · intro hpre
    simp [Metal.metalSubProcessMatch, hnd, hae, had, hbe, hbd, hbf,
      hbfd, hpre]

/-- Witness for `c2_precondition_is_on_mul_add_edge` at the concrete
graph `gC2`, where the `Mul → Add` tracker is contiguous and the
rewrite therefore fires. -/
theorem c2_precondition_is_on_mul_add_edge_witness :
    Metal.metalSubProcessMatch Metal.gC2 0 2 4 =
      Metal.StepResult.done (Metal.metalSubFinish
        (Metal.metalSubInstallFrom Metal.gC2 4 ⟨1, 0, Metal.stPad⟩
          ⟨1, 0, Metal.stCont⟩ 3 1).1 0 2 4) :=
  (c2_precondition_is_on_mul_add_edge Metal.gC2 0 2 4
    ⟨3, 4, 0, 1, false, Metal.stPad⟩ ⟨1, 2, 0, 1, false, Metal.stCont⟩
    ⟨2, 4, 0, 0, false, Metal.stCont⟩ ⟨1, 0, Metal.stPad⟩
    ⟨1, 0, Metal.stCont⟩ ⟨0, 0, Metal.stCont⟩
    (by decide) (by decide) (by decide) (by decide) (by decide)
    (by decide) (by decide)).2 (by decide)

/-- C5 [corrected]: `output_buffer_sizes` of `MetalSub` and `MetalEqual`
returns one expression per output, equal to the element count of the
first input shape multiplied by `size_of::<T>()` — a byte size, whose
value is `size_of::<T>()` times the output's element count. -/
theorem c5_buffer_sizes_are_elements_times_sizeof (sizeofT : Nat)
    (st : Metal.MST) (rest : List Metal.MST) (env : Char → Nat) :
    Metal.metalSubOutputBufferSizes sizeofT (st :: rest) =
      [Metal.BExpr.mul st.nElementsExpr (Metal.BExpr.num sizeofT)] ∧
    Metal.metalEqualOutputBufferSizes sizeofT (st :: rest) =
      Metal.metalSubOutputBufferSizes sizeofT (st :: rest) ∧
    (Metal.metalSubOutputBufferSizes sizeofT (st :: rest)).length = 1 ∧
    ((Metal.metalSubOutputBufferSizes sizeofT (st :: rest)).headD
        (Metal.BExpr.num 0)).evalEnv env =
      (Metal.outputElemCountExpr (st :: rest)).evalEnv env * sizeofT :=
  ⟨rfl, rfl, rfl, rfl⟩


set_option maxHeartbeats 1000000 in
/-- One fusion pass on the two-op chain produces `fusedChain2Graph`. -/
theorem unary_chain2_compiled (f g : Cpu.UTag) :
    Cpu.unaryFusionCompile (Cpu.chain2Graph f g) [] =
      (Cpu.fusedChain2Graph f g, []) := rfl

set_option maxHeartbeats 1000000 in
/-- One fusion pass on the three-op chain produces `chainOnceGraph`. -/
theorem unary_chain_compiled_once :
    Cpu.unaryFusionCompile Cpu.chainGraph [] = (Cpu.chainOnceGraph, []) :=
  rfl

set_option maxHeartbeats 1000000 in
/-- A second fusion pass on `chainOnceGraph` produces
`chainTwiceGraph`. -/
theorem unary_chain_compiled_twice :
    Cpu.unaryFusionCompile Cpu.chainOnceGraph [] =
      (Cpu.chainTwiceGraph, []) := rfl

set_option maxHeartbeats 1000000 in
/-- C6 [corrected]: one application of the unary-fusion pass fuses each
eligible node with its single unary successor, so a two-op chain
collapses to a single `FusedUnary [f, g]` with unchanged output, while
the three-op chain `sin(log2(recip(x)))` needs a second application to
collapse to the single `FusedUnary [recip, log2, sin]`; in all cases
the fused node applies the point functions in application order, so the
output equals the sequential scalar composition. -/
theorem c6_fusion_is_pairwise_and_preserves_output (f g : Cpu.UTag)
    (interp : Cpu.UTag → Int → Int) (inputs : Nat → List Int) :
    (Cpu.unaryFusionCompile (Cpu.chain2Graph f g) []).1 =
      Cpu.fusedChain2Graph f g ∧
    Cpu.evalRetrieved (Cpu.fusedChain2Graph f g) interp inputs =
      Cpu.evalRetrieved (Cpu.chain2Graph f g) interp inputs ∧
    (Cpu.unaryFusionCompile (Cpu.unaryFusionCompile Cpu.chainGraph []).1
        (Cpu.unaryFusionCompile Cpu.chainGraph []).2).1 =
      Cpu.chainTwiceGraph ∧
    Cpu.evalRetrieved Cpu.chainTwiceGraph interp inputs =
      Cpu.evalRetrieved Cpu.chainGraph interp inputs := by
  refine ⟨?_, ?_, ?_, ?_⟩
  · rw [unary_chain2_compiled]
  · show (inputs 0).map (fun v => interp g (interp f v)) =
      ((inputs 0).map (interp f)).map (interp g)
    rw [List.map_map]
    rfl
  · rw [unary_chain_compiled_once, unary_chain_compiled_twice]
  · show (inputs 0).map
        (fun v => interp Cpu.UTag.sin (interp Cpu.UTag.log2
          (interp Cpu.UTag.recip v))) =
      (((inputs 0).map (interp Cpu.UTag.recip)).map
        (interp Cpu.UTag.log2)).map (interp Cpu.UTag.sin)
    rw [List.map_map, List.map_map]
    rfl

/-- C4 [corrected]: when the CPU `MatMul2DCompiler` replaces a match it
migrates every entry for the removed `Mul` and `SumReduce` — in the
caller-held remap, in `no_delete` and in `to_retrieve` — to the new
`MatMul2D` node's id; the metal subtraction pass, by contrast, binds
its remap argument to `_` and returns it untouched for every graph. -/
theorem c4_cpu_migrates_metal_sub_does_not (g : Cpu.CGraph)
    (remap : List Nat) (mulId srId s0 s1 : Nat) (st0 st1 : Cpu.ST)
    (rest : List (Nat × Cpu.ST))
    (hnd : g.noDelete.contains mulId = false)
    (hsrc : Cpu.getSources g mulId = (s0, st0) :: (s1, st1) :: rest) :
    (Cpu.matMul2DProcessMatch g remap mulId srId).2 =
      (remap.map (Cpu.substId srId (Cpu.freshId g))).map
        (Cpu.substId mulId (Cpu.freshId g)) ∧
    (Cpu.matMul2DProcessMatch g remap mulId srId).1.noDelete =
      (g.noDelete.map (Cpu.substId srId (Cpu.freshId g))).map
        (Cpu.substId mulId (Cpu.freshId g)) ∧
    (Cpu.matMul2DProcessMatch g remap mulId srId).1.toRetrieve =
      (g.toRetrieve.map (Cpu.substId srId (Cpu.freshId g))).map
        (Cpu.substId mulId (Cpu.freshId g)) ∧
    (∀ h : Metal.MGraph, ∀ r : List Nat,
      (Metal.metalSubCompile h r).2 = r) := by
  have hnd2 : ¬ (mulId ∈ g.noDelete) := by simpa using hnd
  refine ⟨?_, ?_, ?_, fun h r => rfl⟩ <;>
    simp [Cpu.matMul2DProcessMatch, hnd2, hsrc, Cpu.moveReferences,
      Cpu.removeNode, Cpu.moveOutgoingEdge, Cpu.addEdge, Cpu.addNode]

/-- Witness for `c4_cpu_migrates_metal_sub_does_not` at the concrete
graph `gBad` with a caller-held remap `[2, 3]` holding the ids of the
`Mul` and the `SumReduce`; both entries migrate to the fresh id 4. -/
theorem c4_cpu_migrates_metal_sub_does_not_witness :
    (Cpu.matMul2DProcessMatch Cpu.gBad [2, 3] 2 3).2 =
      (([2, 3].map (Cpu.substId 3 (Cpu.freshId Cpu.gBad))).map
        (Cpu.substId 2 (Cpu.freshId Cpu.gBad))) ∧
    (Cpu.matMul2DProcessMatch Cpu.gBad [2, 3] 2 3).1.noDelete =
      ((Cpu.gBad.noDelete.map (Cpu.substId 3 (Cpu.freshId Cpu.gBad))).map
        (Cpu.substId 2 (Cpu.freshId Cpu.gBad))) ∧
    (Cpu.matMul2DProcessMatch Cpu.gBad [2, 3] 2 3).1.toRetrieve =
      ((Cpu.gBad.toRetrieve.map (Cpu.substId 3 (Cpu.freshId Cpu.gBad))).map
        (Cpu.substId 2 (Cpu.freshId Cpu.gBad))) ∧
    (∀ h : Metal.MGraph, ∀ r : List Nat,
      (Metal.metalSubCompile h r).2 = r) :=
  c4_cpu_migrates_metal_sub_does_not Cpu.gBad [2, 3] 2 3 0 1
    ((Cpu.stContig [2, 1]).expand 1 1)
    (((Cpu.stContig [1, 1]).permute [1, 0]).expand 0 2) []
    (by decide) (by decide)

/-- An element-count expression over dims containing a variable never
resolves with `to_usize`. -/
theorem toUsize_none_of_var_mem (dims : List Metal.MDim) (c : Char)
    (h : Metal.MDim.var c ∈ dims) :
    (dims.foldr (fun d acc => Metal.BExpr.mul (Metal.dimExpr d) acc)
      (Metal.BExpr.num 1)).toUsize = none := by
  induction dims with
  | nil => cases h
  | cons d rest ih =>
    cases h with
    | head => simp [Metal.BExpr.toUsize, Metal.dimExpr]
    | tail _ hm =>
      have hr := ih hm
      cases h3 : (Metal.dimExpr d).toUsize <;>
        simp [Metal.BExpr.toUsize, h3, hr]

/-- A variable absent from `dyn_map` survives `resolve`. -/
theorem var_mem_resolve (st : Metal.MST) (m : List (Char × Nat))
    (c : Char) (h1 : Metal.MDim.var c ∈ st.dims)
    (h2 : Metal.lookupDyn m c = none) :
    Metal.MDim.var c ∈ (st.resolve m).dims := by
  simp only [Metal.MST.resolve]
  refine List.mem_map.mpr ⟨Metal.MDim.var c, h1, ?_⟩
  simp [h2]

/-- C7 [corrected]: whenever a dynamic dimension of the input tracker is
absent from `dyn_map` at dispatch time, the `unwrap`s of
`MetalSub::metal_forward` fail: execution panics, producing no output
tensor, and no `UnboundDimension` (or any other) error value is ever
returned — `Operator::process` has no error channel. -/
theorem c7_absent_dyn_dim_panics (st : Metal.MST) (syms : List Char)
    (m : List (Char × Nat)) (c : Char)
    (h1 : Metal.MDim.var c ∈ st.dims)
    (h2 : Metal.lookupDyn m c = none) :
    Metal.metalSubDispatch st syms m = Metal.ForwardResult.panicked ∧
    ∀ e : Metal.MetalError,
      Metal.metalSubDispatch st syms m ≠ Metal.ForwardResult.errValue e := by
  have hmem := var_mem_resolve st m c h1 h2
  have hnone := toUsize_none_of_var_mem (st.resolve m).dims c hmem
  have hmain : Metal.metalSubDispatch st syms m =
      Metal.ForwardResult.panicked := by
    simp [Metal.metalSubDispatch, Metal.metalSubForwardStep,
      Metal.MST.nElementsExpr, hnone]
  exact ⟨hmain, fun e => by rw [hmain]; exact fun hh => nomatch hh⟩

/-- Witness for `c7_absent_dyn_dim_panics`: the tracker `stVar` holds
the variable `a` which an empty `dyn_map` leaves unbound. -/
theorem c7_absent_dyn_dim_panics_witness :
    Metal.metalSubDispatch Metal.stVar ['a'] [] =
      Metal.ForwardResult.panicked ∧
    ∀ e : Metal.MetalError,
      Metal.metalSubDispatch Metal.stVar ['a'] [] ≠
        Metal.ForwardResult.errValue e :=
  c7_absent_dyn_dim_panics Metal.stVar ['a'] [] 'a'
    (by decide) (by decide)

/-- C8 [confirmed]: whenever the gather match goes through (no matched
node in `no_delete`, the non-`Equal`, non-schedule incoming edge of the
`Mul` exists, and axis index 2 of its tracker resolves to `k`), the
rewrite installs a `MetalGather` whose embedding dimension is exactly
that `k` — the size at axis index 2 of the tracker on that edge. -/
theorem c8_gather_embed_dim_from_mul_edge (g : Metal.MGraph)
    (indCopy arange equal mul sr : Nat) (e : Metal.MEdge)
    (d : Metal.MDim) (k : Nat)
    (hnd : Metal.checkNoDelete g [arange, equal, mul, sr] = false)
    (he : Metal.gatherEmbedEdge g equal mul = some e)
    (hd : e.st.dims.get? 2 = some d)
    (hk : d.toUsize = some k)
    (h5 : sr ≠ Metal.freshId g) (h6 : mul ≠ Metal.freshId g)
    (h7 : indCopy ≠ Metal.freshId g) (h8 : arange ≠ Metal.freshId g)
    (h9 : equal ≠ Metal.freshId g) :
    ∃ gr, Metal.gatherProcessMatch g indCopy arange equal mul sr =
        Metal.StepResult.done gr ∧
      (Metal.freshId g, Metal.MOp.gather k) ∈ gr.nodes := by
  have heq : Metal.gatherProcessMatch g indCopy arange equal mul sr =
      Metal.StepResult.done
        (Metal.safeRemoveNode (Metal.safeRemoveNode (Metal.safeRemoveNode
          (Metal.removeNode (Metal.moveOutgoingEdge sr (Metal.freshId g)
            (Metal.moveIncomingEdge mul (Metal.freshId g)
              (Metal.safeRemoveNode (Metal.moveIncomingEdge indCopy
                (Metal.freshId g) (Metal.addNode g (Metal.freshId g)
                  (Metal.MOp.gather k))) equal 1))) sr)
          mul 0) indCopy 0) arange 0) := by
    have hd2 : e.st.dims[2]? = some d := by
      simpa using hd
    simp [Metal.gatherProcessMatch, hnd, he, hd2, hk]
  refine ⟨_, heq, ?_⟩
  have h0 : (Metal.freshId g, Metal.MOp.gather k) ∈
      (Metal.addNode g (Metal.freshId g) (Metal.MOp.gather k)).nodes :=
    metal_mem_nodes_addNode g (Metal.freshId g) (Metal.MOp.gather k)
  have h1 : (Metal.freshId g, Metal.MOp.gather k) ∈
      (Metal.safeRemoveNode (Metal.moveIncomingEdge indCopy
        (Metal.freshId g) (Metal.addNode g (Metal.freshId g)
          (Metal.MOp.gather k))) equal 1).nodes := by
    apply metal_mem_nodes_safeRemove
    · rw [metal_nodes_moveIncoming]
      exact h0
    · exact fun hc => h9 hc.symm
  have h2 : (Metal.freshId g, Metal.MOp.gather k) ∈
      (Metal.removeNode (Metal.moveOutgoingEdge sr (Metal.freshId g)
        (Metal.moveIncomingEdge mul (Metal.freshId g)
          (Metal.safeRemoveNode (Metal.moveIncomingEdge indCopy
            (Metal.freshId g) (Metal.addNode g (Metal.freshId g)
              (Metal.MOp.gather k))) equal 1))) sr).nodes := by
    apply metal_mem_nodes_removeNode
    · rw [metal_nodes_moveOutgoing, metal_nodes_moveIncoming]
      exact h1
    · exact fun hc => h5 hc.symm
  apply metal_mem_nodes_safeRemove
  · apply metal_mem_nodes_safeRemove
    · apply metal_mem_nodes_safeRemove
      · exact h2
      · exact fun hc => h6 hc.symm
    · exact fun hc => h7 hc.symm
  · exact fun hc => h8 hc.symm

/-- Witness for `c8_gather_embed_dim_from_mul_edge` at the concrete
graph `gC8`: the fresh id is 6 and the tracker on the weights edge has
size 7 at axis index 2. -/
theorem c8_gather_embed_dim_from_mul_edge_witness :
    ∃ gr, Metal.gatherProcessMatch Metal.gC8 1 0 2 4 5 =
        Metal.StepResult.done gr ∧
      (Metal.freshId Metal.gC8, Metal.MOp.gather 7) ∈ gr.nodes :=
  c8_gather_embed_dim_from_mul_edge Metal.gC8 1 0 2 4 5
    ⟨3, 4, 0, 1, false, ⟨[Metal.MDim.known 1, Metal.MDim.known 1,
      Metal.MDim.known 7], true, false, false⟩⟩
    (Metal.MDim.known 7) 7
    (by decide) (by decide) (by decide) (by decide) (by decide)
    (by decide) (by decide) (by decide) (by decide)

/-- Installing the `Sub` node does not remove any node. -/
theorem metal_mem_nodeIds_installFrom (g : Metal.MGraph) (add : Nat)
    (ad bd : Metal.EData) (a b x : Nat) (h : x ∈ Metal.nodeIds g) :
    x ∈ Metal.nodeIds (Metal.metalSubInstallFrom g add ad bd a b).1 := by
  simp only [Metal.metalSubInstallFrom, Metal.moveOutgoingEdge,
    Metal.addEdge, Metal.addNode, Metal.nodeIds, List.map_append] at h ⊢
  exact List.mem_append_left _ h

/-- C9 [confirmed]: once the `Sub` replacement is installed, the `-1`
constant is removed exactly when it has exactly one destination at that
point; with any other destination count the node survives (it is still
a node of the final graph) and every one of its edges not pointing at
the removed `Mul`/`Add` is still present unchanged. -/
theorem c9_neg_one_removed_iff_single_destination (g : Metal.MGraph)
    (negOne mul add : Nat) (ae be bfe : Metal.MEdge)
    (ad bd bfd : Metal.EData)
    (hnd : Metal.checkNoDelete g [negOne, mul, add] = false)
    (hae : Metal.metalSubFindA g mul add = some ae)
    (had : Metal.edgeData ae = some ad)
    (hbe : Metal.metalSubFindB g negOne mul = some be)
    (hbd : Metal.edgeData be = some bd)
    (hbf : Metal.metalSubFindFinal g mul add = some bfe)
    (hbfd : Metal.edgeData bfe = some bfd)
    (hpre : Metal.subPrecondition bfd.st = true)
    (h1 : negOne ≠ mul) (h2 : negOne ≠ add)
    (hmem : negOne ∈ Metal.nodeIds g) :
    Metal.metalSubProcessMatch g negOne mul add =
      Metal.StepResult.done (Metal.metalSubFinish
        (Metal.metalSubInstallFrom g add ad bd ae.src be.src).1
        negOne mul add) ∧
    ((negOne ∈ Metal.nodeIds (Metal.metalSubFinish
        (Metal.metalSubInstallFrom g add ad bd ae.src be.src).1
        negOne mul add)) ↔
      (Metal.getDests (Metal.metalSubInstallFrom g add ad bd ae.src
        be.src).1 negOne).length ≠ 1) ∧
    ((Metal.getDests (Metal.metalSubInstallFrom g add ad bd ae.src
        be.src).1 negOne).length ≠ 1 →
      ∀ e ∈ g.edges, e.src = negOne → e.dst ≠ mul → e.dst ≠ add →
        e ∈ (Metal.metalSubFinish (Metal.metalSubInstallFrom g add ad bd
          ae.src be.src).1 negOne mul add).edges) := by
  refine ⟨?_, ?_, ?_⟩
  · simp [Metal.metalSubProcessMatch, hnd, hae, had, hbe, hbd, hbf,
      hbfd, hpre]
  · by_cases hlen : (Metal.getDests (Metal.metalSubInstallFrom g add ad
        bd ae.src be.src).1 negOne).length = 1
    · have hb : ((Metal.getDests (Metal.metalSubInstallFrom g add ad bd
          ae.src be.src).1 negOne).length == 1) = true := by
        simpa using hlen
      simp only [Metal.metalSubFinish, hb, if_true]
      have hout : negOne ∉ Metal.nodeIds (Metal.removeNode
          (Metal.removeNode (Metal.removeNode (Metal.metalSubInstallFrom
            g add ad bd ae.src be.src).1 negOne) mul) add) := by
        rw [metal_mem_nodeIds_removeNode _ add negOne h2,
          metal_mem_nodeIds_removeNode _ mul negOne h1]
        exact metal_not_mem_nodeIds_removeNode _ negOne
      simp [hout, hlen]
    · have hb : ((Metal.getDests (Metal.metalSubInstallFrom g add ad bd
          ae.src be.src).1 negOne).length == 1) = false := by
        simpa using hlen
      simp only [Metal.metalSubFinish, hb, if_false]
      have hin : negOne ∈ Metal.nodeIds (Metal.removeNode
          (Metal.removeNode (Metal.metalSubInstallFrom g add ad bd
            ae.src be.src).1 mul) add) := by
        rw [metal_mem_nodeIds_removeNode _ add negOne h2,
          metal_mem_nodeIds_removeNode _ mul negOne h1]
        exact metal_mem_nodeIds_installFrom g add ad bd ae.src be.src
          negOne hmem
      simp [hin, hlen]
  · intro hlen e hm hsrc hdm hda
    have hb : ((Metal.getDests (Metal.metalSubInstallFrom g add ad bd
        ae.src be.src).1 negOne).length == 1) = false := by
      simpa using hlen
    simp only [Metal.metalSubFinish, hb, if_false]
    have hG2 : e ∈ (Metal.metalSubInstallFrom g add ad bd ae.src
        be.src).1.edges := by
      simp only [Metal.metalSubInstallFrom]
      apply metal_mem_edges_moveOutgoing
      · exact metal_mem_edges_addEdge _ _ _
          (metal_mem_edges_addEdge _ _ _ hm)
      · rw [hsrc]
        exact h2
    apply metal_mem_edges_removeNode
    · apply metal_mem_edges_removeNode
      · exact hG2
      · rw [hsrc]
        exact h1
      · exact hdm
    · rw [hsrc]
      exact h2
    · exact hda

/-- Witness for `c9_neg_one_removed_iff_single_destination` at `gC9`,
where the `-1` constant feeds two `Mul` nodes and therefore survives
the rewrite. -/
theorem c9_neg_one_removed_iff_single_destination_witness :
    Metal.metalSubProcessMatch Metal.gC9 0 2 4 =
      Metal.StepResult.done (Metal.metalSubFinish
        (Metal.metalSubInstallFrom Metal.gC9 4 ⟨1, 0, Metal.stCont⟩
          ⟨1, 0, Metal.stCont⟩ 3 1).1 0 2 4) ∧
    ((0 ∈ Metal.nodeIds (Metal.metalSubFinish
        (Metal.metalSubInstallFrom Metal.gC9 4 ⟨1, 0, Metal.stCont⟩
          ⟨1, 0, Metal.stCont⟩ 3 1).1 0 2 4)) ↔
      (Metal.getDests (Metal.metalSubInstallFrom Metal.gC9 4
        ⟨1, 0, Metal.stCont⟩ ⟨1, 0, Metal.stCont⟩ 3 1).1 0).length ≠ 1) ∧
    ((Metal.getDests (Metal.metalSubInstallFrom Metal.gC9 4
        ⟨1, 0, Metal.stCont⟩ ⟨1, 0, Metal.stCont⟩ 3 1).1 0).length ≠ 1 →
      ∀ e ∈ Metal.gC9.edges, e.src = 0 → e.dst ≠ 2 → e.dst ≠ 4 →
        e ∈ (Metal.metalSubFinish (Metal.metalSubInstallFrom Metal.gC9 4
          ⟨1, 0, Metal.stCont⟩ ⟨1, 0, Metal.stCont⟩ 3 1).1 0 2 4).edges) :=
  c9_neg_one_removed_iff_single_destination Metal.gC9 0 2 4
    ⟨3, 4, 0, 1, false, Metal.stCont⟩ ⟨1, 2, 0, 1, false, Metal.stCont⟩
    ⟨2, 4, 0, 0, false, Metal.stCont⟩ ⟨1, 0, Metal.stCont⟩
    ⟨1, 0, Metal.stCont⟩ ⟨0, 0, Metal.stCont⟩
    (by decide) (by decide) (by decide) (by decide) (by decide)
    (by decide) (by decide) (by decide) (by decide) (by decide)
    (by decide)

/-- C10 [confirmed]: `GraphTensor::data` returns a vector of
`shape.n_elements()` entries; position `i` holds the stored value at
the physical index the tracker resolves for `i` (when that index is in
range of the underlying storage), and holds `0` when the tracker
reports `i` invalid.  The function only reads `orig`. -/
theorem c10_data_reads_through_tracker (nElem : Nat)
    (index : Nat → Option Nat) (orig : List Int) (i n j : Nat)
    (h1 : i < nElem) (h2 : index i = some n) (h3 : n < orig.length)
    (h4 : j < nElem) (h5 : index j = none) :
    (Core.dataVec nElem index orig).length = nElem ∧
    (Core.dataVec nElem index orig).getD i 0 = orig.get ⟨n, h3⟩ ∧
    (Core.dataVec nElem index orig).getD j 0 = 0 := by
  refine ⟨?_, ?_, ?_⟩
  · simp [Core.dataVec]
  · rw [Core.dataVec, getD_range_map _ _ _ h1, h2]
    show orig.getD n 0 = orig.get ⟨n, h3⟩
    rw [List.getD_eq_getElem orig 0 h3]
    exact (List.get_eq_getElem orig ⟨n, h3⟩).symm
  · rw [Core.dataVec, getD_range_map _ _ _ h4, h5]

/-- Witness for `c10_data_reads_through_tracker`: a 3-element view onto
the storage `[5, 7]` whose tracker maps logical 0 to physical 1 and
reports logical 2 invalid. -/
theorem c10_data_reads_through_tracker_witness :
    (Core.dataVec 3 (fun i => if i == 0 then some 1 else none)
      [5, 7]).length = 3 ∧
    (Core.dataVec 3 (fun i => if i == 0 then some 1 else none)
      [5, 7]).getD 0 0 = ([5, 7] : List Int).get ⟨1, by decide⟩ ∧
    (Core.dataVec 3 (fun i => if i == 0 then some 1 else none)
      [5, 7]).getD 2 0 = 0 :=
  c10_data_reads_through_tracker 3
    (fun i => if i == 0 then some 1 else none) [5, 7] 0 1 2
    (by decide) (by decide) (by decide) (by decide) (by decide)
